import Mathlib

/-!
Verification development for the `resample` package (go-resample).

The Go source is embedded shallowly:

* machine floating point (`float32`/`float64`) is idealised as an arbitrary
  linear ordered field with a floor function; claim witnesses instantiate it
  at `ℚ` (computable) and the transcendental Lanczos kernels live at `ℝ`;
* an `image.NRGBA64` is a width/height pair together with a pixel function
  returning the four stored 16-bit channels (as `ℕ`);
* the goroutine/channel protocol of `ResizeToChannelWithFilter` is embedded
  as the finite list of steps that are sent over the result channel, in
  order; closing the channel corresponds to the end of the list;
* the `panic("Unfiltered axis must have preserved size.")` in
  `resampleAxisNRGBA64` is modelled by an `Option` result (`none` = panic).
-/

namespace Resample

/-- The four stored 16-bit channels of one `image.NRGBA64` pixel
(`R`, `G`, `B`, `A`), each in `[0, 0xffff]`. -/
structure RGBA where
  R : ℕ
  G : ℕ
  B : ℕ
  A : ℕ
deriving DecidableEq

/-- An `image.NRGBA64` with `Bounds().Min = (0,0)`: a `width × height` grid
of pixels.  `pix x y` is the pixel at column `x`, row `y`. -/
structure NRGBA64 where
  width : ℕ
  height : ℕ
  pix : ℕ → ℕ → RGBA

instance : Inhabited NRGBA64 := ⟨⟨0, 0, fun _ _ => ⟨0, 0, 0, 0⟩⟩⟩

/-- Go `image.NewNRGBA64(image.Rect(0, 0, w, h))`: a fresh all-zero buffer. -/
def newNRGBA64 (w h : ℕ) : NRGBA64 := ⟨w, h, fun _ _ => ⟨0, 0, 0, 0⟩⟩

/-- Go `f32RGBA`: the per-channel floating accumulator used internally
("Internally all calculations are done intermediary float32 RGBA values"). -/
structure F32RGBA (α : Type) where
  R : α
  G : α
  B : α
  A : α

/-- A resampling filter and support (`type Filter struct`).  `Apply` is a
Go function value and hence nilable, modelled by `Option`. -/
structure Filter (α : Type) where
  Apply : Option (α → α)
  Support : α

/-- Go `type WrapFunc func(x, min, max int) int`. -/
abbrev WrapFunc : Type := ℤ → ℤ → ℤ → ℤ

/-- Go `Clamp` the filter at the image boundaries. -/
def Clamp : WrapFunc := fun x mn mx =>
  if x < mn then mn else if x > mx then mx else x

/-- Go `Reject` samples from outside the image. -/
def Reject : WrapFunc := fun x mn mx =>
  if x < mn ∨ x > mx then -1 else x

/-- Go `Reflect`: image boundaries act as mirrors. -/
def Reflect : WrapFunc := fun x mn mx =>
  if x < mn then 2 * mn - x else if x > mx then 2 * mx - x else x

/-- Go `type Error int` and its five constants. -/
inductive Error where
  | missingFilter
  | missingWrapFunc
  | sourceImageIsInvalid
  | targetImageIsInvalid
  | targetSizeIsInvalid
deriving DecidableEq

section Kernels

variable {α : Type} [LinearOrderedField α]

/-- Go `box`: `1` if `-0.5 < x ≤ 0.5` else `0`. -/
def box (x : α) : α := if -(1 / 2) < x ∧ x ≤ 1 / 2 then 1 else 0

/-- Go `triangle`: `max(0, 1 - |x|)`, written exactly as in the source. -/
def triangle (x : α) : α :=
  let x := if x > 0 then -x else x
  if x > -1 then 1 + x else 0

/-- Go `cubic(b, c)`: the Mitchell-Netravali two-piece cubic. -/
def cubic (b c : α) (t : α) : α :=
  let tt := t * t
  let t := if t < 0 then -t else t
  if t < 1 then
    ((12 - 9 * b - 6 * c) * (t * tt) + (-18 + 12 * b + 6 * c) * tt + (6 - 2 * b)) / 6
  else if t < 2 then
    ((-1 * b - 6 * c) * (t * tt) + (6 * b + 30 * c) * tt + (-12 * b - 48 * c) * t
      + (8 * b + 24 * c)) / 6
  else 0

/-- Go `Box` preset ("Also called linear"); support `0.5`. -/
def Box : Filter α := ⟨some box, 1 / 2⟩

/-- Go `Triangle` preset ("Also called bilinear"); support `1`. -/
def Triangle : Filter α := ⟨some triangle, 1⟩

/-- Go `Mitchell` preset: `cubic(1.0/1.3, 1.0/1.3)` (`1.0/1.3 = 10/13`); support `2`. -/
def Mitchell : Filter α := ⟨some (cubic (10 / 13) (10 / 13)), 2⟩

/-- Go `CatmullRom` preset: `cubic(0, 1.0/2.0)`; support `2`. -/
def CatmullRom : Filter α := ⟨some (cubic 0 (1 / 2)), 2⟩

/-- Go `BSpline` preset: `cubic(1.0, 0.0)`; support `2`. -/
def BSpline : Filter α := ⟨some (cubic 1 0), 2⟩

/-- Go `const epsilon = 0.0000125`: cutoff for the lanczos filter. -/
def epsilon : ℝ := 0.0000125

/-- Go `sinc(x) = sin(πx)/(πx)` with a Taylor expansion around `0`. -/
noncomputable def sinc (f : ℝ) : ℝ :=
  let f := f * Real.pi
  if f < 0.01 ∧ f > -0.01 then 1 + f * f * (-(1 / 6) + f * f * (1 / 120))
  else Real.sin f / f

/-- Go `cutnoise`: snap near-zero lanczos outputs to exact zero. -/
noncomputable def cutnoise (f : ℝ) : ℝ :=
  if f < -epsilon ∨ f > epsilon then f else 0

/-- Go `lanczos(w)`: windowed sinc of width `w`. -/
noncomputable def lanczos (w : ℝ) (f : ℝ) : ℝ :=
  let f := if f < 0 then -f else f
  if f < w then cutnoise (sinc f * sinc (f / w)) else 0

/-- Go `Lanczos12 = Filter{Apply: lanczos(12), Support: 12}`. -/
noncomputable def Lanczos12 : Filter ℝ := ⟨some (lanczos 12), 12⟩

/-- Go `Lanczos5 = Filter{Apply: lanczos(5), Support: 5}`. -/
noncomputable def Lanczos5 : Filter ℝ := ⟨some (lanczos 5), 5⟩

/-- Go `Lanczos3 = Filter{Apply: lanczos(3), Support: 3}`. -/
noncomputable def Lanczos3 : Filter ℝ := ⟨some (lanczos 3), 3⟩

end Kernels

section DiscreteFilter

variable {α : Type} [LinearOrderedField α] [FloorRing α]

/-- Index `wrap(k)` and filter value `v = F(k)` precalculated (`kvPair`). -/
structure KVPair (α : Type) where
  k : ℤ
  v : α

/-- The anchor scale `dst2src := float64(ndst-1) / float64(nsrc-1)` of
`makeDiscreteFilter`: destination `0` and `ndst-1` map exactly to source
`0` and `nsrc-1`. -/
def dst2src (α : Type) [LinearOrderedField α] (ndst nsrc : ℕ) : α :=
  ((ndst : α) - 1) / ((nsrc : α) - 1)

/-- Go `src_x := float64(i) / dst2src`: the source-space center for
destination coordinate `i`. -/
def srcCenter (α : Type) [LinearOrderedField α] (ndst nsrc i : ℕ) : α :=
  (i : α) / dst2src α ndst nsrc

/-- The filter function; after validation `F.Apply` is non-nil and the
default is never used. -/
def applyF (F : Filter α) : α → α := F.Apply.getD (fun _ => 0)

/-- One un-normalized row of `makeDiscreteFilter`: the surviving
`(k, v)` pairs for destination coordinate `i` (inner `for j` loop),
before the rescaling pass. -/
def filterRow (F : Filter α) (wrap : WrapFunc) (ndst nsrc : ℕ) (i : ℕ) :
    List (KVPair α) :=
  let d2s : α := dst2src α ndst nsrc
  let support : α := if d2s < 1 then F.Support / d2s else F.Support
  let fscale : α := if d2s < 1 then d2s else 1
  let nudge : α := 1 / 100000000
  let src_x : α := srcCenter α ndst nsrc i
  let lo : ℤ := ⌊src_x - support - nudge⌋
  let hi : ℤ := ⌈src_x + support + nudge⌉
  ((List.range (hi + 1 - lo).toNat).map (fun t => lo + (t : ℤ))).filterMap
    (fun (j : ℤ) =>
      let v : α := applyF F (fscale * ((j : α) - src_x)) * fscale
      let k : ℤ := wrap j 0 ((nsrc : ℤ) - 1)
      if 0 ≤ k ∧ k < (nsrc : ℤ) ∧ v ≠ 0 then some ⟨k, v⟩ else none)

/-- The rescaling pass of `makeDiscreteFilter`:
`rescale := 1.0 / sum_v; df[i][j].v = rescale * kv.v`. -/
def normalizeRow (row : List (KVPair α)) : List (KVPair α) :=
  let sum_v : α := (row.map KVPair.v).sum
  row.map (fun kv => ⟨kv.k, 1 / sum_v * kv.v⟩)

/-- Go `makeDiscreteFilter(f, wrap, ndst, nsrc)`: the per-destination table of
`(k, v)` pairs together with `count`, the total number of surviving
entries. -/
def makeDiscreteFilter (F : Filter α) (wrap : WrapFunc) (ndst nsrc : ℕ) :
    List (List (KVPair α)) × ℕ :=
  let df := (List.range ndst).map
    (fun i => normalizeRow (filterRow F wrap ndst nsrc i))
  (df, (df.map List.length).sum)

end DiscreteFilter

/-- Go `type step struct`: a step of the resampling process, as sent on the
result channel.  `image` is non-nil only on the final step; `total` and
`done` count operations. -/
structure Step where
  image : Option NRGBA64
  total : ℕ
  done : ℕ

/-- Go `func (s step) Done() bool { return s.image != nil }`. -/
def Step.isDone (s : Step) : Bool := s.image.isSome

/-- Go `func (s step) Percent() int`; the `float32` quotient is idealised as
the exact integer part `⌊100·done/total⌋` (natural division). -/
def Step.percent (s : Step) : ℕ :=
  if s.isDone then 100
  else if s.total = 0 then 0
  else 100 * s.done / s.total

/-- Go `type axisSwitch int` with constants `yAxis`, `xAxis`. -/
inductive AxisSwitch where
  | yAxis
  | xAxis
deriving DecidableEq, BEq

section Convolver

variable {α : Type} [LinearOrderedField α] [FloorRing α]

/-- Go `uint16_to_f32 = 1.0 / float32(uint16(0xffff))`. -/
def uint16_to_f32 (α : Type) [LinearOrderedField α] : α := 1 / 65535

/-- Go `f32_to_uint16 = float32(uint16(0xffff))`. -/
def f32_to_uint16 (α : Type) [LinearOrderedField α] : α := 65535

/-- Go `fetchLine` conversion of one stored pixel into the floating
accumulator format: each 16-bit channel scaled by `uint16_to_f32`. -/
def toF32RGBA (c : RGBA) : F32RGBA α :=
  ⟨uint16_to_f32 α * (c.R : α), uint16_to_f32 α * (c.G : α),
   uint16_to_f32 α * (c.B : α), uint16_to_f32 α * (c.A : α)⟩

/-- The finite-value branch of `clampF32ToUint16`: saturate to
`[0, 0xffff]` and truncate (`uint16(x)` truncates toward zero; here
`0 ≤ x`, so this is the floor).  Non-finite inputs are covered by the
`F32` model below. -/
def clampToUint16 (x : α) : ℕ :=
  if x > f32_to_uint16 α then 65535
  else if x < 0 then 0
  else (⌊x⌋).toNat

/-- Go `putLineNRGBA64` conversion of one accumulator pixel back to stored
channels: `clampF32ToUint16(f32_to_uint16 * c)` per channel. -/
def putF32RGBA (c : F32RGBA α) : RGBA :=
  ⟨clampToUint16 (f32_to_uint16 α * c.R), clampToUint16 (f32_to_uint16 α * c.G),
   clampToUint16 (f32_to_uint16 α * c.B), clampToUint16 (f32_to_uint16 α * c.A)⟩

/-- The inner accumulation of `resampleAxisNRGBA64` for one destination
coordinate: `dst_c += f_y.v * src_c` over the `kvPair` entries of the row, reading
the gathered source line `col`. -/
def accumRow (row : List (KVPair α)) (col : ℕ → F32RGBA α) : F32RGBA α :=
  row.foldl
    (fun acc kv =>
      let src_c := col kv.k.toNat
      ⟨acc.R + kv.v * src_c.R, acc.G + kv.v * src_c.G,
       acc.B + kv.v * src_c.B, acc.A + kv.v * src_c.A⟩)
    ⟨0, 0, 0, 0⟩

/-- Go `resampleAxisNRGBA64(axis, keepAlive, dst, src, f)`.

The destination is a fresh `dstW × dstH` buffer.  `none` models the
`panic("Unfiltered axis must have preserved size.")` taken when the
unfiltered-axis extent of the destination differs from that of the source.
On success it returns the written destination image together with the
per-line operation counts handed to `keepAlive` (one call per line; the
`keepAlive` of the source always returns `true`, so there is no early exit). -/
def resampleAxisNRGBA64 (axis : AxisSwitch) (dstW dstH : ℕ) (src : NRGBA64)
    (f : List (List (KVPair α))) : Option (NRGBA64 × List ℕ) :=
  let flip := axis != AxisSwitch.yAxis
  let xsize := if flip then src.height else src.width
  let dstXsize := if flip then dstH else dstW
  let dstYsize := if flip then dstW else dstH
  if xsize ≠ dstXsize then none
  else
    let srcLine : ℕ → ℕ → F32RGBA α := fun x y =>
      toF32RGBA (if flip then src.pix y x else src.pix x y)
    let dstLine : ℕ → ℕ → F32RGBA α := fun x y_i =>
      accumRow (f.getD y_i []) (srcLine x)
    let dstPix : ℕ → ℕ → RGBA := fun a b =>
      if flip then putF32RGBA (dstLine b a) else putF32RGBA (dstLine a b)
    let lineOps : List ℕ := (List.range dstXsize).map
      (fun _ => ((List.range dstYsize).map (fun y_i => (f.getD y_i []).length)).sum)
    some (⟨dstW, dstH, dstPix⟩, lineOps)

end Convolver

/-- Go `opIncrement = 200 * 1000`: sends happen every `opIncrement`
operations. -/
def opIncrement : ℕ := 200 * 1000

/-- The mutable closure state of `keepAlive`: the running `opCount` and
the next send threshold `lastOps`. -/
structure KA where
  opCount : ℕ
  lastOps : ℕ

/-- One `keepAlive(ops)` call: bump `opCount`; once it reaches `lastOps`,
send a continuing step `{image: nil, total: totalOps, done: opCount}` and
advance `lastOps` by `opIncrement`. -/
def keepAlive (totalOps : ℕ) (s : KA) (ops : ℕ) : KA × List Step :=
  let oc := s.opCount + ops
  if s.lastOps ≤ oc then (⟨oc, s.lastOps + opIncrement⟩, [⟨none, totalOps, oc⟩])
  else (⟨oc, s.lastOps⟩, [])

/-- The `keepAlive` calls issued across a pass: one per completed line,
with the operation count of that line. -/
def runKeepAlive (totalOps : ℕ) : KA → List ℕ → KA × List Step
  | s, [] => (s, [])
  | s, ops :: rest =>
    let p := keepAlive totalOps s ops
    let q := runKeepAlive totalOps p.1 rest
    (q.1, p.2 ++ q.2)

/-- The full step sequence sent on the result channel by the resampling
goroutine: the initial `keepAlive(0)` (sent before any real work, while
`totalOps` is still `0`), the continuing steps of the two passes, then
the terminal step from `sendImage` (after which the channel is closed). -/
def buildTrace (totalOps : ℕ) (l1 l2 : List ℕ) (dst : NRGBA64) : List Step :=
  let p0 := keepAlive 0 ⟨0, 0⟩ 0
  let p1 := runKeepAlive totalOps p0.1 l1
  let p2 := runKeepAlive totalOps p1.1 l2
  p0.2 ++ p1.2 ++ p2.2 ++ [⟨some dst, totalOps, p2.1.opCount⟩]

/-- The observable outcome of `ResizeToChannelWithFilter`: a validation
error (no channel returned), the zero-size short circuit, the internal
size panic (proved unreachable), or a full run recording the executed
pass order (`yFirst`), the intermediate buffer size and the steps sent. -/
inductive Outcome where
  | err (e : Error)
  | shortCircuit (steps : List Step)
  | panicked
  | run (yFirst : Bool) (tmpW tmpH : ℕ) (steps : List Step)

/-- The steps delivered on the channel, when one is returned. -/
def Outcome.steps? : Outcome → Option (List Step)
  | .shortCircuit s => some s
  | .run _ _ _ s => some s
  | _ => none

section Engine

variable {α : Type} [LinearOrderedField α] [FloorRing α]

/-- Go `ResizeToChannelWithFilter(newSize, src, F, XWrap, YWrap)`.

Validation happens synchronously, in source order; a zero target
dimension short-circuits to a single terminal step carrying an empty
buffer; otherwise the two filter tables are built, the cheaper pass
order chosen (`xy_ops < yx_ops`), and the two convolution passes run
through one intermediate buffer `tmp`. -/
def ResizeToChannelWithFilter (newX newY : ℤ) (src : Option NRGBA64)
    (F : Filter α) (XWrap YWrap : Option WrapFunc) : Outcome :=
  match src with
  | none => .err .sourceImageIsInvalid
  | some img =>
    if newX < 0 ∨ newY < 0 then .err .targetSizeIsInvalid
    else if F.Apply.isNone ∨ F.Support ≤ 0 then .err .missingFilter
    else if XWrap.isNone ∨ YWrap.isNone then .err .missingWrapFunc
    else if newX = 0 ∨ newY = 0 then
      .shortCircuit [⟨some (newNRGBA64 newX.toNat newY.toNat), 0, 0⟩]
    else
      let dstW := newX.toNat
      let dstH := newY.toNat
      let srcW := img.width
      let srcH := img.height
      let xw := XWrap.getD (fun x _ _ => x)
      let yw := YWrap.getD (fun x _ _ => x)
      let xmade := makeDiscreteFilter F xw dstW srcW
      let ymade := makeDiscreteFilter F yw dstH srcH
      let xy_ops := ymade.2 * srcW + xmade.2 * dstH
      let yx_ops := xmade.2 * srcH + ymade.2 * dstW
      if xy_ops < yx_ops then
        match resampleAxisNRGBA64 .yAxis srcW dstH img ymade.1 with
        | none => .panicked
        | some t1 =>
          match resampleAxisNRGBA64 .xAxis dstW dstH t1.1 xmade.1 with
          | none => .panicked
          | some t2 => .run true srcW dstH (buildTrace xy_ops t1.2 t2.2 t2.1)
      else
        match resampleAxisNRGBA64 .xAxis dstW srcH img xmade.1 with
        | none => .panicked
        | some t1 =>
          match resampleAxisNRGBA64 .yAxis dstW dstH t1.1 ymade.1 with
          | none => .panicked
          | some t2 => .run false dstW srcH (buildTrace yx_ops t1.2 t2.2 t2.1)

end Engine

/-- Go `ResizeToChannel(newSize, src)`: delegate to
`ResizeToChannelWithFilter` with the `Lanczos3` filter and `Reject`
boundary handling on both axes. -/
noncomputable def ResizeToChannel (newX newY : ℤ) (src : Option NRGBA64) :
    Outcome :=
  ResizeToChannelWithFilter newX newY src Lanczos3 (some Reject) (some Reject)

/-- The receive loop of the caller in `Resize`: keep taking steps from the
channel until `Done()`, then return the image of the step.  `none` models a
caller that never gets a done step (blocked receive / panic). -/
def awaitDone : Outcome → Option (Except Error NRGBA64)
  | .err e => some (.error e)
  | .panicked => none
  | .shortCircuit steps => ((steps.find? fun s => s.isDone).bind Step.image).map .ok
  | .run _ _ _ steps => ((steps.find? fun s => s.isDone).bind Step.image).map .ok

/-- Go `Resize(newSize, src)`: validate, short-circuit a zero dimension to a
fresh empty buffer, otherwise run `ResizeToChannel` and wait for the
terminal step. -/
noncomputable def Resize (newX newY : ℤ) (src : Option NRGBA64) :
    Option (Except Error NRGBA64) :=
  match src with
  | none => some (.error .sourceImageIsInvalid)
  | some _ =>
    if newX < 0 ∨ newY < 0 then some (.error .targetSizeIsInvalid)
    else if newX = 0 ∨ newY = 0 then some (.ok (newNRGBA64 newX.toNat newY.toNat))
    else awaitDone (ResizeToChannel newX newY src)

/-- A `float32` value as seen by `clampF32ToUint16`: a finite value
(idealised as a rational) or one of the non-finite IEEE values. -/
inductive F32 where
  | finite (q : ℚ)
  | nan
  | posInf
  | negInf
deriving DecidableEq

/-- Go `<` on `float32`: any comparison with NaN is false. -/
def F32.lt : F32 → F32 → Bool
  | .finite a, .finite b => a < b
  | .finite _, .posInf => true
  | .negInf, .finite _ => true
  | .negInf, .posInf => true
  | _, _ => false

/-- Go `clampF32ToUint16(x)`: values above `0xffff` saturate to `0xffff`,
values below `0` saturate to `0`; in-range finite values are truncated
(`uint16(x)`, the floor for `x ≥ 0`).  A NaN input reaches the final
`uint16(x)` conversion, whose result the Go specification leaves
implementation-specific (the source comments `// What happens with
NaNs?`); that case is modelled as `none`. -/
def clampF32ToUint16 (x : F32) : Option ℕ :=
  if F32.lt (.finite 65535) x then some 65535
  else if F32.lt x (.finite 0) then some 0
  else
    match x with
    | .finite q => some (⌊q⌋).toNat
    | _ => none

/-- An everywhere-zero kernel.  It passes the validation of
`ResizeToChannelWithFilter` (its `Apply` is non-nil and its `Support` is
positive), yet it contributes no surviving table entry. -/
def zeroKernel : Filter ℚ := ⟨some fun _ => 0, 1⟩

/-- A concrete 2×2 source image used to instantiate theorems. -/
def testImg : NRGBA64 := ⟨2, 2, fun _ _ => ⟨65535, 0, 32768, 65535⟩⟩

/-! ## Theorems -/

section RowLemmas

variable {α : Type} [LinearOrderedField α] [FloorRing α]

/-- Row `i` of the discrete filter table is the normalized surviving row. -/
theorem makeDiscreteFilter_row (F : Filter α) (wrap : WrapFunc) (ndst nsrc i : ℕ)
    (hi : i < ndst) :
    (makeDiscreteFilter F wrap ndst nsrc).1.getD i [] =
      normalizeRow (filterRow F wrap ndst nsrc i) := by
  simp only [makeDiscreteFilter]
  rw [List.getD_eq_getElem?_getD, List.getElem?_map, List.getElem?_range hi]
  rfl

/-- Renormalization makes the weights of a row sum to `1` whenever the raw
sum is nonzero. -/
theorem normalizeRow_sum (row : List (KVPair α))
    (h : (row.map KVPair.v).sum ≠ 0) :
    ((normalizeRow row).map KVPair.v).sum = 1 := by
  unfold normalizeRow
  rw [List.map_map]
  have hfun : (KVPair.v ∘ fun kv : KVPair α =>
      (⟨kv.k, 1 / (row.map KVPair.v).sum * kv.v⟩ : KVPair α)) =
      fun kv : KVPair α => 1 / (row.map KVPair.v).sum * KVPair.v kv := rfl
  rw [hfun, List.sum_map_mul_left]
  field_simp

end RowLemmas

/-- C6: for `ndst > 1` and `nsrc > 1` the table construction uses the
anchor scale `dst2src = (ndst-1)/(nsrc-1)` and maps destination `i` to
source center `i/dst2src`, so destination endpoint `0` maps exactly to
source `0` and destination endpoint `ndst-1` maps exactly to source
`nsrc-1`. -/
theorem c6_anchor_mapping {α : Type} [LinearOrderedField α] (ndst nsrc : ℕ)
    (h1 : 1 < ndst) (h2 : 1 < nsrc) :
    dst2src α ndst nsrc = ((ndst : α) - 1) / ((nsrc : α) - 1) ∧
    srcCenter α ndst nsrc 0 = 0 ∧
    srcCenter α ndst nsrc (ndst - 1) = (nsrc : α) - 1 := by
  refine ⟨rfl, by simp [srcCenter], ?_⟩
  unfold srcCenter dst2src
  have hd : ((ndst : α) - 1) ≠ 0 := by
    have h : (1 : α) < (ndst : α) := by exact_mod_cast h1
    linarith
  have hs : ((nsrc : α) - 1) ≠ 0 := by
    have h : (1 : α) < (nsrc : α) := by exact_mod_cast h2
    linarith
  rw [Nat.cast_sub (le_of_lt h1)]
  push_cast
  field_simp

/-- C6 witness: at `ℚ`, `ndst = 3`, `nsrc = 5` the endpoints anchor. -/
theorem c6_anchor_mapping_witness :
    dst2src ℚ 3 5 = ((3 : ℚ) - 1) / ((5 : ℚ) - 1) ∧
    srcCenter ℚ 3 5 0 = 0 ∧
    srcCenter ℚ 3 5 (3 - 1) = (5 : ℚ) - 1 :=
  c6_anchor_mapping 3 5 (by norm_num) (by norm_num)

/-- C1 (amended): for `ndst > 1`, `nsrc > 1` and any destination
coordinate `i < ndst`, *provided the raw sum of the surviving weights for
`i` is nonzero*, the entry list `makeDiscreteFilter` produces for `i` has
weights that sum to exactly `1`, because every surviving weight is divided
by the raw sum. -/
theorem c1_row_weights_sum_one {α : Type} [LinearOrderedField α] [FloorRing α]
    (F : Filter α) (wrap : WrapFunc) (ndst nsrc i : ℕ)
    (h1 : 1 < ndst) (h2 : 1 < nsrc) (hi : i < ndst)
    (hsum : ((filterRow F wrap ndst nsrc i).map KVPair.v).sum ≠ 0) :
    (((makeDiscreteFilter F wrap ndst nsrc).1.getD i []).map KVPair.v).sum = 1 := by
  rw [makeDiscreteFilter_row F wrap ndst nsrc i hi]
  exact normalizeRow_sum _ hsum

/-- C1 witness: the `Box` kernel with `Clamp`, `ndst = nsrc = 3`, `i = 0`
has raw weight sum `1 ≠ 0`, and the produced row sums to exactly `1`. -/
theorem c1_row_weights_sum_one_witness :
    ((filterRow (Box (α := ℚ)) Clamp 3 3 0).map KVPair.v).sum ≠ 0 ∧
    (((makeDiscreteFilter (Box (α := ℚ)) Clamp 3 3).1.getD 0 []).map
      KVPair.v).sum = 1 := by
  have hsum : ((filterRow (Box (α := ℚ)) Clamp 3 3 0).map KVPair.v).sum ≠ 0 := by
    have hceil : (⌈(50000001 : ℚ) / 100000000⌉ : ℤ) = 1 := by
      rw [Int.ceil_eq_iff]
      norm_num
    have hcand : ((List.range (Int.toNat 3)).flatMap fun a => ([(a : ℤ)])) =
        [0, 1, 2] := by decide
    norm_num [filterRow, srcCenter, dst2src, applyF, Box, box, Clamp, hceil, hcand]
    norm_num [List.filterMap]
  exact ⟨hsum, c1_row_weights_sum_one (Box (α := ℚ)) Clamp 3 3 0 (by norm_num)
    (by norm_num) (by norm_num) hsum⟩

/-- C1 counterexample: the claim as stated fails for the (validation-
accepted) everywhere-zero kernel: at `ndst = nsrc = 2`, `i = 0` every
candidate weight is `0`, so the surviving entry list is empty and its
weight sum is `0`, not `1`. -/
theorem c1_zero_kernel_counterexample :
    ¬ ((((makeDiscreteFilter zeroKernel Clamp 2 2).1.getD 0 []).map
        KVPair.v).sum = 1) := by
  have hceil : (⌈(100000001 : ℚ) / 100000000⌉ : ℤ) = 2 := by
    rw [Int.ceil_eq_iff]
    norm_num
  have hnil : ∀ (l : List ℤ),
      List.filterMap (fun _ => (none : Option (KVPair ℚ))) l = [] :=
    fun _ => List.filterMap_eq_nil_iff.mpr (fun _ _ => rfl)
  norm_num [zeroKernel, makeDiscreteFilter, normalizeRow, filterRow, srcCenter,
    dst2src, applyF, Clamp, hceil, List.range_succ]
  norm_num [Function.comp_def, hnil]

/-- C10: `Percent()` returns `100` exactly when the step is done, `0`
(rather than dividing by zero) when not done with total count `0`, and
otherwise the integer part of `100·done/total`. -/
theorem c10_percent (s : Step) :
    (s.isDone = true → s.percent = 100) ∧
    (s.isDone = false → s.total = 0 → s.percent = 0) ∧
    (s.isDone = false → s.total ≠ 0 → s.percent = 100 * s.done / s.total) := by
  unfold Step.percent
  exact ⟨fun h => by simp [h], fun h h0 => by simp [h, h0], fun h h0 => by simp [h, h0]⟩

/-- C10 witness: a done step reports `100`; a zero-total continuing step
reports `0`; a continuing step at `4` of `8` operations reports `50`. -/
theorem c10_percent_witness :
    (Step.mk (some testImg) 7 3).percent = 100 ∧
    (Step.mk none 0 9).percent = 0 ∧
    (Step.mk none 8 4).percent = 50 := by
  refine ⟨(c10_percent _).1 rfl, (c10_percent _).2.1 rfl rfl, ?_⟩
  have h := (c10_percent (Step.mk none 8 4)).2.2 rfl (by decide)
  simpa using h

/-- C7: the accumulator-to-channel conversion saturates — every finite
value below `0` becomes `0` and every finite value above the channel
maximum becomes `0xffff`, and `±∞` are caught by the same comparisons —
but a NaN accumulator is *not* mapped to a clamped extreme: both guards
are false for NaN, so it falls through to the Go `uint16(x)` conversion,
whose result for NaN the language leaves implementation-specific
(modelled as `none`). -/
theorem c7_clamp_saturation_nan_gap :
    clampF32ToUint16 (.finite 70000) = some 65535 ∧
    clampF32ToUint16 (.finite (-3)) = some 0 ∧
    clampF32ToUint16 (.finite (3 / 2)) = some 1 ∧
    clampF32ToUint16 .posInf = some 65535 ∧
    clampF32ToUint16 .negInf = some 0 ∧
    clampF32ToUint16 .nan = none := by
  refine ⟨?_, ?_, ?_, rfl, rfl, rfl⟩
  · norm_num [clampF32ToUint16, F32.lt]
  · norm_num [clampF32ToUint16, F32.lt]
  · norm_num [clampF32ToUint16, F32.lt]

/-- C4: validation is synchronous and each invalid input fails with its
own distinct error value (source checked first, then target size, then
filter, then wrap functions), and an error outcome delivers no steps. -/
theorem c4_validation {α : Type} [LinearOrderedField α] [FloorRing α]
    (newX newY : ℤ) (src : Option NRGBA64) (F : Filter α)
    (XW YW : Option WrapFunc) :
    (src = none →
      ResizeToChannelWithFilter newX newY src F XW YW =
        .err .sourceImageIsInvalid) ∧
    (src ≠ none → (newX < 0 ∨ newY < 0) →
      ResizeToChannelWithFilter newX newY src F XW YW =
        .err .targetSizeIsInvalid) ∧
    (src ≠ none → ¬(newX < 0 ∨ newY < 0) →
      (F.Apply.isNone = true ∨ F.Support ≤ 0) →
      ResizeToChannelWithFilter newX newY src F XW YW = .err .missingFilter) ∧
    (src ≠ none → ¬(newX < 0 ∨ newY < 0) →
      ¬(F.Apply.isNone = true ∨ F.Support ≤ 0) →
      (XW.isNone = true ∨ YW.isNone = true) →
      ResizeToChannelWithFilter newX newY src F XW YW = .err .missingWrapFunc) ∧
    (∀ e, (Outcome.err e).steps? = none) ∧
    (Error.sourceImageIsInvalid ≠ Error.targetSizeIsInvalid ∧
     Error.sourceImageIsInvalid ≠ Error.missingFilter ∧
     Error.sourceImageIsInvalid ≠ Error.missingWrapFunc ∧
     Error.targetSizeIsInvalid ≠ Error.missingFilter ∧
     Error.targetSizeIsInvalid ≠ Error.missingWrapFunc ∧
     Error.missingFilter ≠ Error.missingWrapFunc) := by
  refine ⟨?_, ?_, ?_, ?_, fun e => rfl, by decide⟩
  · rintro rfl
    rfl
  · intro hs hneg
    obtain ⟨img, rfl⟩ := Option.ne_none_iff_exists'.mp hs
    simp only [ResizeToChannelWithFilter]
    rw [if_pos hneg]
  · intro hs hneg hfil
    obtain ⟨img, rfl⟩ := Option.ne_none_iff_exists'.mp hs
    simp only [ResizeToChannelWithFilter]
    rw [if_neg hneg, if_pos hfil]
  · intro hs hneg hfil hwrap
    obtain ⟨img, rfl⟩ := Option.ne_none_iff_exists'.mp hs
    simp only [ResizeToChannelWithFilter]
    rw [if_neg hneg, if_neg hfil, if_pos hwrap]

/-- C4 witness: each kind of invalid input, at concrete values. -/
theorem c4_validation_witness :
    ResizeToChannelWithFilter 2 2 none (Box (α := ℚ)) (some Clamp) (some Clamp) =
      .err .sourceImageIsInvalid ∧
    ResizeToChannelWithFilter (-1) 2 (some testImg) (Box (α := ℚ)) (some Clamp)
      (some Clamp) = .err .targetSizeIsInvalid ∧
    ResizeToChannelWithFilter 2 2 (some testImg) (⟨none, 1⟩ : Filter ℚ)
      (some Clamp) (some Clamp) = .err .missingFilter ∧
    ResizeToChannelWithFilter 2 2 (some testImg) (Box (α := ℚ)) none
      (some Clamp) = .err .missingWrapFunc := by
  refine ⟨(c4_validation 2 2 none (Box (α := ℚ)) (some Clamp) (some Clamp)).1 rfl,
    (c4_validation (-1) 2 (some testImg) (Box (α := ℚ)) (some Clamp)
      (some Clamp)).2.1 (by simp) (Or.inl (by decide)),
    (c4_validation 2 2 (some testImg) (⟨none, 1⟩ : Filter ℚ) (some Clamp)
      (some Clamp)).2.2.1 (by simp) (by decide) (Or.inl rfl),
    (c4_validation 2 2 (some testImg) (Box (α := ℚ)) none (some Clamp)).2.2.2.1
      (by simp) (by decide) ?_ (Or.inl rfl)⟩
  rintro (h | h)
  · exact absurd h (by simp [Box])
  · exact absurd h (by norm_num [Box])

/-- C5: for every non-nil source, a target size with a zero dimension and
no negative dimension is not an error: `Resize` returns a fresh empty
buffer of exactly the requested dimensions (the zero branch returns
before `ResizeToChannel` is ever called), and `ResizeToChannelWithFilter`
likewise short-circuits to the single terminal step before building any
filter table or running any convolution pass. -/
theorem c5_zero_target (newX newY : ℤ) (img : NRGBA64)
    (hx : 0 ≤ newX) (hy : 0 ≤ newY) (h0 : newX = 0 ∨ newY = 0) :
    Resize newX newY (some img) =
      some (.ok (newNRGBA64 newX.toNat newY.toNat)) ∧
    (newNRGBA64 newX.toNat newY.toNat).width = newX.toNat ∧
    (newNRGBA64 newX.toNat newY.toNat).height = newY.toNat ∧
    (∀ (α : Type) [LinearOrderedField α] [FloorRing α] (F : Filter α)
        (xw yw : WrapFunc), F.Apply.isNone = false → 0 < F.Support →
      ResizeToChannelWithFilter newX newY (some img) F (some xw) (some yw) =
        .shortCircuit [⟨some (newNRGBA64 newX.toNat newY.toNat), 0, 0⟩]) := by
  have hneg : ¬(newX < 0 ∨ newY < 0) := by omega
  refine ⟨?_, rfl, rfl, ?_⟩
  · simp only [Resize]
    rw [if_neg hneg, if_pos h0]
  · intro α _ _ F xw yw hFa hFs
    have hfil : ¬(F.Apply.isNone = true ∨ F.Support ≤ 0) := by
      rintro (h | h)
      · rw [hFa] at h
        exact Bool.false_ne_true h
      · exact absurd h (not_le.mpr hFs)
    have hwrap : ¬((some xw : Option WrapFunc).isNone = true ∨
        (some yw : Option WrapFunc).isNone = true) := by
      rintro (h | h) <;> simp [Option.isNone] at h
    simp only [ResizeToChannelWithFilter]
    rw [if_neg hneg, if_neg hfil, if_neg hwrap, if_pos h0]

/-- C5 witness: `Resize` at target `0 × 3` yields the empty `0 × 3`
buffer with a nil error, and the channel variant short-circuits. -/
theorem c5_zero_target_witness :
    Resize 0 3 (some testImg) = some (.ok (newNRGBA64 0 3)) ∧
    ResizeToChannelWithFilter 0 3 (some testImg) (Box (α := ℚ)) (some Clamp)
      (some Clamp) = .shortCircuit [⟨some (newNRGBA64 0 3), 0, 0⟩] := by
  have h := c5_zero_target 0 3 testImg (by decide) (by decide) (Or.inl rfl)
  exact ⟨h.1, h.2.2.2 ℚ Box Clamp Clamp rfl (by norm_num [Box])⟩

theorem runKeepAlive_cons (t : ℕ) (s : KA) (ops : ℕ) (rest : List ℕ) :
    runKeepAlive t s (ops :: rest) =
      ((runKeepAlive t (keepAlive t s ops).1 rest).1,
       (keepAlive t s ops).2 ++ (runKeepAlive t (keepAlive t s ops).1 rest).2) :=
  rfl

theorem keepAlive_pos (t : ℕ) (s : KA) (ops : ℕ)
    (h : s.lastOps ≤ s.opCount + ops) :
    keepAlive t s ops =
      (⟨s.opCount + ops, s.lastOps + opIncrement⟩,
       [⟨none, t, s.opCount + ops⟩]) := by
  unfold keepAlive
  rw [if_pos h]

theorem keepAlive_neg (t : ℕ) (s : KA) (ops : ℕ)
    (h : ¬ s.lastOps ≤ s.opCount + ops) :
    keepAlive t s ops = (⟨s.opCount + ops, s.lastOps⟩, []) := by
  unfold keepAlive
  rw [if_neg h]

/-- Emitted continuing steps have nil images and done counts that are
bounded by the op counts of the surrounding states and non-decreasing. -/
theorem runKeepAlive_spec (t : ℕ) (l : List ℕ) : ∀ (s : KA),
    s.opCount ≤ (runKeepAlive t s l).1.opCount ∧
    (∀ e ∈ (runKeepAlive t s l).2,
      e.image = none ∧ s.opCount ≤ e.done ∧
        e.done ≤ (runKeepAlive t s l).1.opCount) ∧
    ((runKeepAlive t s l).2.map Step.done).Pairwise (· ≤ ·) := by
  induction l with
  | nil =>
    intro s
    simp [runKeepAlive]
  | cons ops rest ih =>
    intro s
    obtain ⟨ih1, ih2, ih3⟩ := ih ⟨s.opCount + ops, s.lastOps + opIncrement⟩
    obtain ⟨ih1', ih2', ih3'⟩ := ih ⟨s.opCount + ops, s.lastOps⟩
    by_cases h : s.lastOps ≤ s.opCount + ops
    · rw [runKeepAlive_cons, keepAlive_pos t s ops h]
      dsimp only
      refine ⟨le_trans (Nat.le_add_right _ _) ih1, ?_, ?_⟩
      · rintro e he
        rcases List.mem_cons.mp he with rfl | he'
        · exact ⟨rfl, Nat.le_add_right _ _, ih1⟩
        · obtain ⟨e1, e2, e3⟩ := ih2 e he'
          exact ⟨e1, le_trans (Nat.le_add_right _ _) e2, e3⟩
      · rw [List.singleton_append, List.map_cons, List.pairwise_cons]
        refine ⟨?_, ih3⟩
        rintro b hb
        obtain ⟨e, he, rfl⟩ := List.mem_map.mp hb
        exact (ih2 e he).2.1
    · rw [runKeepAlive_cons, keepAlive_neg t s ops h]
      dsimp only
      refine ⟨le_trans (Nat.le_add_right _ _) ih1', ?_, by simpa using ih3'⟩
      rintro e he
      rw [List.nil_append] at he
      obtain ⟨e1, e2, e3⟩ := ih2' e he
      exact ⟨e1, le_trans (Nat.le_add_right _ _) e2, e3⟩

theorem buildTrace_eq (t : ℕ) (l1 l2 : List ℕ) (dst : NRGBA64) :
    buildTrace t l1 l2 dst =
      ⟨none, 0, 0⟩ :: ((runKeepAlive t ⟨0, opIncrement⟩ l1).2 ++
        ((runKeepAlive t (runKeepAlive t ⟨0, opIncrement⟩ l1).1 l2).2 ++
          [⟨some dst, t,
            (runKeepAlive t (runKeepAlive t ⟨0, opIncrement⟩ l1).1 l2).1.opCount⟩])) := by
  have h0 : keepAlive 0 ⟨0, 0⟩ 0 = (⟨0, opIncrement⟩, [⟨none, 0, 0⟩]) := rfl
  simp only [buildTrace, h0]
  simp

/-- Assembling the done counts of the two passes and the terminal step
into one non-decreasing sequence. -/
theorem pairwise_done_aux (A B : List Step) (last : Step) (s2oc : ℕ)
    (hA : ∀ e ∈ A, e.done ≤ s2oc)
    (hAp : (A.map Step.done).Pairwise (· ≤ ·))
    (hB : ∀ e ∈ B, s2oc ≤ e.done ∧ e.done ≤ last.done)
    (hBp : (B.map Step.done).Pairwise (· ≤ ·))
    (h2last : s2oc ≤ last.done) :
    ((((⟨none, 0, 0⟩ : Step) :: (A ++ B)) ++ [last]).map Step.done).Pairwise
      (· ≤ ·) := by
  have hcross : ∀ a ∈ (A ++ B).map Step.done, ∀ b ∈ [last].map Step.done,
      a ≤ b := by
    rintro a ha b hb
    rw [List.map_cons, List.map_nil, List.mem_singleton] at hb
    subst hb
    rw [List.map_append, List.mem_append] at ha
    rcases ha with ha | ha
    · obtain ⟨e, he, rfl⟩ := List.mem_map.mp ha
      exact le_trans (hA e he) h2last
    · obtain ⟨e, he, rfl⟩ := List.mem_map.mp ha
      exact (hB e he).2
  have hmid : ((A ++ B).map Step.done).Pairwise (· ≤ ·) := by
    rw [List.map_append, List.pairwise_append]
    refine ⟨hAp, hBp, ?_⟩
    rintro a ha b hb
    obtain ⟨e, he, rfl⟩ := List.mem_map.mp ha
    obtain ⟨f, hf, rfl⟩ := List.mem_map.mp hb
    exact le_trans (hA e he) (hB f hf).1
  rw [List.cons_append, List.map_cons, List.pairwise_cons]
  constructor
  · intro b _
    exact Nat.zero_le _
  · rw [List.map_append, List.pairwise_append]
    exact ⟨hmid, by simp, hcross⟩

/-- The step list sent by a full run: continuing steps (nil image,
non-decreasing done counts) followed by exactly one terminal step
carrying the destination image and the estimated total. -/
theorem buildTrace_spec (t : ℕ) (l1 l2 : List ℕ) (dst : NRGBA64) :
    ∃ cont last, buildTrace t l1 l2 dst = cont ++ [last] ∧
      last.image = some dst ∧ last.total = t ∧
      (∀ s ∈ cont, s.image = none) ∧
      ((cont ++ [last]).map Step.done).Pairwise (· ≤ ·) := by
  obtain ⟨h11, h12, h13⟩ := runKeepAlive_spec t l1 ⟨0, opIncrement⟩
  obtain ⟨h21, h22, h23⟩ :=
    runKeepAlive_spec t l2 (runKeepAlive t ⟨0, opIncrement⟩ l1).1
  refine ⟨⟨none, 0, 0⟩ :: ((runKeepAlive t ⟨0, opIncrement⟩ l1).2 ++
      (runKeepAlive t (runKeepAlive t ⟨0, opIncrement⟩ l1).1 l2).2),
    ⟨some dst, t,
      (runKeepAlive t (runKeepAlive t ⟨0, opIncrement⟩ l1).1 l2).1.opCount⟩,
    ?_, rfl, rfl, ?_, ?_⟩
  · rw [buildTrace_eq]
    simp
  · rintro s hs
    rcases List.mem_cons.mp hs with rfl | hs'
    · rfl
    · rcases List.mem_append.mp hs' with h | h
      · exact (h12 s h).1
      · exact (h22 s h).1
  · exact pairwise_done_aux _ _ _ (runKeepAlive t ⟨0, opIncrement⟩ l1).1.opCount
      (fun e he => (h12 e he).2.2) h13
      (fun e he => ⟨(h22 e he).2.1, (h22 e he).2.2⟩) h23 h21

theorem buildTrace_getLast (t : ℕ) (l1 l2 : List ℕ) (dst : NRGBA64) :
    (buildTrace t l1 l2 dst).getLast? = some ⟨some dst, t,
      (runKeepAlive t (runKeepAlive t ⟨0, opIncrement⟩ l1).1 l2).1.opCount⟩ := by
  rw [buildTrace_eq]
  rw [show (⟨none, 0, 0⟩ : Step) :: ((runKeepAlive t ⟨0, opIncrement⟩ l1).2 ++
      ((runKeepAlive t (runKeepAlive t ⟨0, opIncrement⟩ l1).1 l2).2 ++
        [⟨some dst, t,
          (runKeepAlive t (runKeepAlive t ⟨0, opIncrement⟩ l1).1 l2).1.opCount⟩])) =
      ((⟨none, 0, 0⟩ : Step) :: ((runKeepAlive t ⟨0, opIncrement⟩ l1).2 ++
        (runKeepAlive t (runKeepAlive t ⟨0, opIncrement⟩ l1).1 l2).2)) ++
      [⟨some dst, t,
        (runKeepAlive t (runKeepAlive t ⟨0, opIncrement⟩ l1).1 l2).1.opCount⟩]
    by simp]
  exact List.getLast?_concat _

section AxisLemmas

variable {α : Type} [LinearOrderedField α] [FloorRing α]

/-- A `yAxis` pass whose destination preserves the source width does not
hit the size panic. -/
theorem resampleAxis_yAxis_some (dstW dstH : ℕ) (src : NRGBA64)
    (f : List (List (KVPair α))) (h : src.width = dstW) :
    ∃ r : NRGBA64 × List ℕ,
      resampleAxisNRGBA64 AxisSwitch.yAxis dstW dstH src f = some r := by
  subst h
  simp [resampleAxisNRGBA64,
    show (AxisSwitch.yAxis != AxisSwitch.yAxis) = false from rfl]

/-- An `xAxis` pass whose destination preserves the source height does
not hit the size panic. -/
theorem resampleAxis_xAxis_some (dstW dstH : ℕ) (src : NRGBA64)
    (f : List (List (KVPair α))) (h : src.height = dstH) :
    ∃ r : NRGBA64 × List ℕ,
      resampleAxisNRGBA64 AxisSwitch.xAxis dstW dstH src f = some r := by
  subst h
  simp [resampleAxisNRGBA64,
    show (AxisSwitch.xAxis != AxisSwitch.yAxis) = true from rfl]

/-- A successful pass writes a destination of exactly the requested
dimensions. -/
theorem resampleAxis_dims (axis : AxisSwitch) (dstW dstH : ℕ) (src : NRGBA64)
    (f : List (List (KVPair α))) (r : NRGBA64 × List ℕ)
    (h : resampleAxisNRGBA64 axis dstW dstH src f = some r) :
    r.1.width = dstW ∧ r.1.height = dstH := by
  simp only [resampleAxisNRGBA64] at h
  split at h <;> split at h <;>
    first
      | exact Option.noConfusion h
      | (rw [Option.some_inj] at h
         subst h
         exact ⟨rfl, rfl⟩)

/-- The executed shape of a valid, non-degenerate resize: both passes
succeed, the final buffer has the requested dimensions, and the branch
taken is decided by comparing `xy_ops` against `yx_ops`, the two cost
estimates computed from the filter-table operation counts. -/
theorem rtcwf_run_spec (newX newY : ℤ) (img : NRGBA64) (F : Filter α)
    (xw yw : WrapFunc) (hx : 0 < newX) (hy : 0 < newY)
    (hA : F.Apply.isNone = false) (hS : 0 < F.Support) :
    ∃ r1 r2 : NRGBA64 × List ℕ,
      r2.1.width = newX.toNat ∧ r2.1.height = newY.toNat ∧
      (if (makeDiscreteFilter F yw newY.toNat img.height).2 * img.width +
          (makeDiscreteFilter F xw newX.toNat img.width).2 * newY.toNat <
          (makeDiscreteFilter F xw newX.toNat img.width).2 * img.height +
          (makeDiscreteFilter F yw newY.toNat img.height).2 * newX.toNat then
        ResizeToChannelWithFilter newX newY (some img) F (some xw) (some yw) =
          .run true img.width newY.toNat
            (buildTrace
              ((makeDiscreteFilter F yw newY.toNat img.height).2 * img.width +
               (makeDiscreteFilter F xw newX.toNat img.width).2 * newY.toNat)
              r1.2 r2.2 r2.1)
      else
        ResizeToChannelWithFilter newX newY (some img) F (some xw) (some yw) =
          .run false newX.toNat img.height
            (buildTrace
              ((makeDiscreteFilter F xw newX.toNat img.width).2 * img.height +
               (makeDiscreteFilter F yw newY.toNat img.height).2 * newX.toNat)
              r1.2 r2.2 r2.1)) := by
  have hneg : ¬(newX < 0 ∨ newY < 0) := by omega
  have h0 : ¬(newX = 0 ∨ newY = 0) := by omega
  have hfil : ¬(F.Apply.isNone = true ∨ F.Support ≤ 0) := by
    rintro (h | h)
    · rw [hA] at h
      exact Bool.false_ne_true h
    · exact absurd h (not_le.mpr hS)
  have hwrap : ¬((some xw : Option WrapFunc).isNone = true ∨
      (some yw : Option WrapFunc).isNone = true) := by
    rintro (h | h) <;> simp [Option.isNone] at h
  by_cases hc : (makeDiscreteFilter F yw newY.toNat img.height).2 * img.width +
      (makeDiscreteFilter F xw newX.toNat img.width).2 * newY.toNat <
      (makeDiscreteFilter F xw newX.toNat img.width).2 * img.height +
      (makeDiscreteFilter F yw newY.toNat img.height).2 * newX.toNat
  · obtain ⟨r1, hr1⟩ := resampleAxis_yAxis_some img.width newY.toNat img
      (makeDiscreteFilter F yw newY.toNat img.height).1 rfl
    have hd1 := resampleAxis_dims _ _ _ _ _ _ hr1
    obtain ⟨r2, hr2⟩ := resampleAxis_xAxis_some newX.toNat newY.toNat r1.1
      (makeDiscreteFilter F xw newX.toNat img.width).1 hd1.2
    have hd2 := resampleAxis_dims _ _ _ _ _ _ hr2
    refine ⟨r1, r2, hd2.1, hd2.2, ?_⟩
    rw [if_pos hc]
    simp only [ResizeToChannelWithFilter, Option.getD_some]
    rw [if_neg hneg, if_neg hfil, if_neg hwrap, if_neg h0, if_pos hc]
    simp only [hr1, hr2]
  · obtain ⟨r1, hr1⟩ := resampleAxis_xAxis_some newX.toNat img.height img
      (makeDiscreteFilter F xw newX.toNat img.width).1 rfl
    have hd1 := resampleAxis_dims _ _ _ _ _ _ hr1
    obtain ⟨r2, hr2⟩ := resampleAxis_yAxis_some newX.toNat newY.toNat r1.1
      (makeDiscreteFilter F yw newY.toNat img.height).1 hd1.1
    have hd2 := resampleAxis_dims _ _ _ _ _ _ hr2
    refine ⟨r1, r2, hd2.1, hd2.2, ?_⟩
    rw [if_neg hc]
    simp only [ResizeToChannelWithFilter, Option.getD_some]
    rw [if_neg hneg, if_neg hfil, if_neg hwrap, if_neg h0, if_neg hc]
    simp only [hr1, hr2]

end AxisLemmas

/-- C2: for every valid resize request, the step sequence delivered on
the result channel is zero or more continuing steps (`Done()` false)
whose done operation counts are non-decreasing, followed by exactly one
done step (`Done()` true) whose image has exactly the requested target
dimensions; the list ends there (the channel is closed after the
terminal step). -/
theorem c2_step_stream {α : Type} [LinearOrderedField α] [FloorRing α]
    (newX newY : ℤ) (img : NRGBA64) (F : Filter α) (xw yw : WrapFunc)
    (hx : 0 ≤ newX) (hy : 0 ≤ newY)
    (hA : F.Apply.isNone = false) (hS : 0 < F.Support) :
    ∃ cont last,
      (ResizeToChannelWithFilter newX newY (some img) F (some xw)
        (some yw)).steps? = some (cont ++ [last]) ∧
      (∀ s ∈ cont, s.isDone = false) ∧
      ((cont ++ [last]).map Step.done).Pairwise (· ≤ ·) ∧
      last.isDone = true ∧
      (∃ out, last.image = some out ∧ out.width = newX.toNat ∧
        out.height = newY.toNat) := by
  have hfil : ¬(F.Apply.isNone = true ∨ F.Support ≤ 0) := by
    rintro (h | h)
    · rw [hA] at h
      exact Bool.false_ne_true h
    · exact absurd h (not_le.mpr hS)
  have hwrap : ¬((some xw : Option WrapFunc).isNone = true ∨
      (some yw : Option WrapFunc).isNone = true) := by
    rintro (h | h) <;> simp [Option.isNone] at h
  by_cases h0 : newX = 0 ∨ newY = 0
  · have hneg : ¬(newX < 0 ∨ newY < 0) := by omega
    refine ⟨[], ⟨some (newNRGBA64 newX.toNat newY.toNat), 0, 0⟩, ?_, ?_, ?_, rfl,
      ⟨newNRGBA64 newX.toNat newY.toNat, rfl, rfl, rfl⟩⟩
    · simp only [ResizeToChannelWithFilter]
      rw [if_neg hneg, if_neg hfil, if_neg hwrap, if_pos h0]
      rfl
    · rintro s hs
      exact absurd hs (List.not_mem_nil s)
    · simp
  · have hx' : 0 < newX := by omega
    have hy' : 0 < newY := by omega
    obtain ⟨r1, r2, hw, hh, hif⟩ := rtcwf_run_spec newX newY img F xw yw hx' hy' hA hS
    by_cases hc : (makeDiscreteFilter F yw newY.toNat img.height).2 * img.width +
        (makeDiscreteFilter F xw newX.toNat img.width).2 * newY.toNat <
        (makeDiscreteFilter F xw newX.toNat img.width).2 * img.height +
        (makeDiscreteFilter F yw newY.toNat img.height).2 * newX.toNat
    · rw [if_pos hc] at hif
      obtain ⟨cont, last, hdec, himg, htot, hcont, hpair⟩ :=
        buildTrace_spec ((makeDiscreteFilter F yw newY.toNat img.height).2 * img.width +
          (makeDiscreteFilter F xw newX.toNat img.width).2 * newY.toNat) r1.2 r2.2 r2.1
      refine ⟨cont, last, ?_, ?_, hpair, ?_, ⟨r2.1, himg, hw, hh⟩⟩
      · rw [hif]
        simp only [Outcome.steps?]
        rw [hdec]
      · intro s hs
        simp [Step.isDone, hcont s hs]
      · simp [Step.isDone, himg]
    · rw [if_neg hc] at hif
      obtain ⟨cont, last, hdec, himg, htot, hcont, hpair⟩ :=
        buildTrace_spec ((makeDiscreteFilter F xw newX.toNat img.width).2 * img.height +
          (makeDiscreteFilter F yw newY.toNat img.height).2 * newX.toNat) r1.2 r2.2 r2.1
      refine ⟨cont, last, ?_, ?_, hpair, ?_, ⟨r2.1, himg, hw, hh⟩⟩
      · rw [hif]
        simp only [Outcome.steps?]
        rw [hdec]
      · intro s hs
        simp [Step.isDone, hcont s hs]
      · simp [Step.isDone, himg]

/-- C2 witness: a concrete valid request (2×2 target, `Box` kernel,
`Clamp` boundaries) delivers such a step stream. -/
theorem c2_step_stream_witness :
    ∃ cont last,
      (ResizeToChannelWithFilter 2 2 (some testImg) (Box (α := ℚ))
        (some Clamp) (some Clamp)).steps? = some (cont ++ [last]) ∧
      (∀ s ∈ cont, s.isDone = false) ∧
      ((cont ++ [last]).map Step.done).Pairwise (· ≤ ·) ∧
      last.isDone = true ∧
      (∃ out, last.image = some out ∧ out.width = (2 : ℤ).toNat ∧
        out.height = (2 : ℤ).toNat) :=
  c2_step_stream 2 2 testImg Box Clamp Clamp (by decide) (by decide) rfl
    (by norm_num [Box])

/-- C3: for every valid request with positive target dimensions, the
engine computes `cost(Y-then-X) = yOps·srcWidth + xOps·dstHeight` and
`cost(X-then-Y) = xOps·srcHeight + yOps·dstWidth` from the two
filter-table operation counts, executes Y-then-X through a
`srcWidth × dstHeight` intermediate buffer exactly when its cost is the
strictly smaller one (otherwise X-then-Y through `dstWidth × srcHeight`),
and the total recorded by the terminal step operation count is the minimum of the two
costs. -/
theorem c3_pass_order_min_cost {α : Type} [LinearOrderedField α] [FloorRing α]
    (newX newY : ℤ) (img : NRGBA64) (F : Filter α) (xw yw : WrapFunc)
    (hx : 0 < newX) (hy : 0 < newY)
    (hA : F.Apply.isNone = false) (hS : 0 < F.Support) :
    ∃ steps last,
      (if (makeDiscreteFilter F yw newY.toNat img.height).2 * img.width +
          (makeDiscreteFilter F xw newX.toNat img.width).2 * newY.toNat <
          (makeDiscreteFilter F xw newX.toNat img.width).2 * img.height +
          (makeDiscreteFilter F yw newY.toNat img.height).2 * newX.toNat then
        ResizeToChannelWithFilter newX newY (some img) F (some xw) (some yw) =
          .run true img.width newY.toNat steps
      else
        ResizeToChannelWithFilter newX newY (some img) F (some xw) (some yw) =
          .run false newX.toNat img.height steps) ∧
      steps.getLast? = some last ∧
      last.total = min
        ((makeDiscreteFilter F yw newY.toNat img.height).2 * img.width +
         (makeDiscreteFilter F xw newX.toNat img.width).2 * newY.toNat)
        ((makeDiscreteFilter F xw newX.toNat img.width).2 * img.height +
         (makeDiscreteFilter F yw newY.toNat img.height).2 * newX.toNat) := by
  obtain ⟨r1, r2, hw, hh, hif⟩ := rtcwf_run_spec newX newY img F xw yw hx hy hA hS
  by_cases hc : (makeDiscreteFilter F yw newY.toNat img.height).2 * img.width +
      (makeDiscreteFilter F xw newX.toNat img.width).2 * newY.toNat <
      (makeDiscreteFilter F xw newX.toNat img.width).2 * img.height +
      (makeDiscreteFilter F yw newY.toNat img.height).2 * newX.toNat
  · rw [if_pos hc] at hif
    refine ⟨buildTrace
        ((makeDiscreteFilter F yw newY.toNat img.height).2 * img.width +
         (makeDiscreteFilter F xw newX.toNat img.width).2 * newY.toNat)
        r1.2 r2.2 r2.1, _, ?_,
      buildTrace_getLast _ r1.2 r2.2 r2.1, ?_⟩
    · rw [if_pos hc]
      exact hif
    · exact (min_eq_left (le_of_lt hc)).symm
  · rw [if_neg hc] at hif
    refine ⟨buildTrace
        ((makeDiscreteFilter F xw newX.toNat img.width).2 * img.height +
         (makeDiscreteFilter F yw newY.toNat img.height).2 * newX.toNat)
        r1.2 r2.2 r2.1, _, ?_,
      buildTrace_getLast _ r1.2 r2.2 r2.1, ?_⟩
    · rw [if_neg hc]
      exact hif
    · exact (min_eq_right (le_of_not_lt hc)).symm

/-- C3 witness: the concrete valid request of the C2 witness, with the
pass order decided by the computed costs. -/
theorem c3_pass_order_min_cost_witness :
    ∃ steps last,
      (if (makeDiscreteFilter (Box (α := ℚ)) Clamp (2 : ℤ).toNat
            testImg.height).2 * testImg.width +
          (makeDiscreteFilter (Box (α := ℚ)) Clamp (2 : ℤ).toNat
            testImg.width).2 * (2 : ℤ).toNat <
          (makeDiscreteFilter (Box (α := ℚ)) Clamp (2 : ℤ).toNat
            testImg.width).2 * testImg.height +
          (makeDiscreteFilter (Box (α := ℚ)) Clamp (2 : ℤ).toNat
            testImg.height).2 * (2 : ℤ).toNat then
        ResizeToChannelWithFilter 2 2 (some testImg) (Box (α := ℚ))
          (some Clamp) (some Clamp) = .run true testImg.width (2 : ℤ).toNat steps
      else
        ResizeToChannelWithFilter 2 2 (some testImg) (Box (α := ℚ))
          (some Clamp) (some Clamp) =
            .run false (2 : ℤ).toNat testImg.height steps) ∧
      steps.getLast? = some last ∧
      last.total = min
        ((makeDiscreteFilter (Box (α := ℚ)) Clamp (2 : ℤ).toNat
           testImg.height).2 * testImg.width +
         (makeDiscreteFilter (Box (α := ℚ)) Clamp (2 : ℤ).toNat
           testImg.width).2 * (2 : ℤ).toNat)
        ((makeDiscreteFilter (Box (α := ℚ)) Clamp (2 : ℤ).toNat
           testImg.width).2 * testImg.height +
         (makeDiscreteFilter (Box (α := ℚ)) Clamp (2 : ℤ).toNat
           testImg.height).2 * (2 : ℤ).toNat) :=
  c3_pass_order_min_cost 2 2 testImg Box Clamp Clamp (by decide) (by decide) rfl
    (by norm_num [Box])

/-- C9: the internal size panic of `resampleAxisNRGBA64` is unreachable
from `ResizeToChannelWithFilter`: every intermediate/destination buffer
it constructs preserves the unfiltered-axis size of its source. -/
theorem c9_no_panic {α : Type} [LinearOrderedField α] [FloorRing α]
    (newX newY : ℤ) (src : Option NRGBA64) (F : Filter α)
    (XW YW : Option WrapFunc) :
    ResizeToChannelWithFilter newX newY src F XW YW ≠ Outcome.panicked := by
  cases src with
  | none => simp [ResizeToChannelWithFilter]
  | some img =>
    simp only [ResizeToChannelWithFilter]
    by_cases h1 : newX < 0 ∨ newY < 0
    · rw [if_pos h1]
      simp
    rw [if_neg h1]
    by_cases h2 : F.Apply.isNone = true ∨ F.Support ≤ 0
    · rw [if_pos h2]
      simp
    rw [if_neg h2]
    by_cases h3 : XW.isNone = true ∨ YW.isNone = true
    · rw [if_pos h3]
      simp
    rw [if_neg h3]
    by_cases h4 : newX = 0 ∨ newY = 0
    · rw [if_pos h4]
      simp
    rw [if_neg h4]
    by_cases hc : (makeDiscreteFilter F (YW.getD fun x _ _ => x) newY.toNat
        img.height).2 * img.width +
        (makeDiscreteFilter F (XW.getD fun x _ _ => x) newX.toNat
          img.width).2 * newY.toNat <
        (makeDiscreteFilter F (XW.getD fun x _ _ => x) newX.toNat
          img.width).2 * img.height +
        (makeDiscreteFilter F (YW.getD fun x _ _ => x) newY.toNat
          img.height).2 * newX.toNat
    · rw [if_pos hc]
      obtain ⟨r1, hr1⟩ := resampleAxis_yAxis_some img.width newY.toNat img
        (makeDiscreteFilter F (YW.getD fun x _ _ => x) newY.toNat img.height).1 rfl
      have hd1 := resampleAxis_dims _ _ _ _ _ _ hr1
      obtain ⟨r2, hr2⟩ := resampleAxis_xAxis_some newX.toNat newY.toNat r1.1
        (makeDiscreteFilter F (XW.getD fun x _ _ => x) newX.toNat img.width).1 hd1.2
      simp only [hr1, hr2]
      simp
    · rw [if_neg hc]
      obtain ⟨r1, hr1⟩ := resampleAxis_xAxis_some newX.toNat img.height img
        (makeDiscreteFilter F (XW.getD fun x _ _ => x) newX.toNat img.width).1 rfl
      have hd1 := resampleAxis_dims _ _ _ _ _ _ hr1
      obtain ⟨r2, hr2⟩ := resampleAxis_yAxis_some newX.toNat newY.toNat r1.1
        (makeDiscreteFilter F (YW.getD fun x _ _ => x) newY.toNat img.height).1 hd1.1
      simp only [hr1, hr2]
      simp

/-- C8: the synchronous `Resize` performs its resampling by awaiting the
channel of `ResizeToChannelWithFilter` invoked with the default kernel
`Lanczos3` — the Lanczos filter with support `3` — and the `Reject`
boundary policy on both axes, for every non-nil source and positive
target size. -/
theorem c8_resize_defaults (newX newY : ℤ) (img : NRGBA64)
    (hx : 0 < newX) (hy : 0 < newY) :
    Resize newX newY (some img) =
      awaitDone (ResizeToChannelWithFilter newX newY (some img) Lanczos3
        (some Reject) (some Reject)) ∧
    Lanczos3.Support = 3 ∧ Lanczos3.Apply = some (lanczos 3) := by
  have hneg : ¬(newX < 0 ∨ newY < 0) := by omega
  have h0 : ¬(newX = 0 ∨ newY = 0) := by omega
  refine ⟨?_, rfl, rfl⟩
  simp only [Resize, ResizeToChannel]
  rw [if_neg hneg, if_neg h0]

/-- C8 witness: the defaults at a concrete request. -/
theorem c8_resize_defaults_witness :
    Resize 1 1 (some testImg) =
      awaitDone (ResizeToChannelWithFilter 1 1 (some testImg) Lanczos3
        (some Reject) (some Reject)) ∧
    Lanczos3.Support = 3 ∧ Lanczos3.Apply = some (lanczos 3) :=
  c8_resize_defaults 1 1 testImg (by decide) (by decide)

end Resample
